import Mathlib

/-!
Verification of the "Brian" query-answering orchestrator.

The repository consists of a typed data model (`types/agent`), an HTTP
boundary (`app/api/agent/route.ts`), a browser chat client
(`app/page.tsx`) and an orchestration core (`lib/agent`, exposing
`getAgentResponse`).  The data model, boundary and client are embedded
here directly from their sources; the orchestration core is not part of
the visible sources, so it is modelled from the specification (each such
definition is marked `Modelled from the spec:`).
-/

namespace Brian

/-- From `types/agent` (`AgentToolSettings`): fixed-shape capability map,
one boolean per known capability. -/
structure AgentToolSettings where
  search : Bool
  knowledge : Bool
  community : Bool
  system : Bool
deriving DecidableEq, Repr

/-- From `types/agent` (`AgentSourceType`): the four capability names. -/
inductive AgentSourceType where
  | search
  | knowledge
  | community
  | system
deriving DecidableEq, Repr

/-- From `types/agent` (`AgentSource`): one normalized result item.
`confidence` is a comparable ranking signal in `[0,1]`, modelled as a
rational number; the open-ended `metadata` bag carries no behaviour
relevant to the claims and is omitted. -/
structure AgentSource where
  id : String
  type : AgentSourceType
  title : String
  url : Option String
  snippet : String
  confidence : ℚ
deriving DecidableEq, Repr

/-- From `types/agent` (`AgentDiagnostics`). -/
structure AgentDiagnostics where
  steps : List String
  toolTrace : List String
  visionBias : Option (List String)
  errors : Option (List String)
deriving DecidableEq, Repr

/-- From `types/agent` (`AgentResponse`). -/
structure AgentResponse where
  query : String
  vision : Option String
  timestamp : String
  summary : String
  plan : List String
  sources : List AgentSource
  diagnostics : AgentDiagnostics
deriving DecidableEq, Repr

/-- From `types/agent` (`AgentRequestPayload`): the argument shape of
`getAgentResponse`.  `vision` is optional. -/
structure AgentRequestPayload where
  query : String
  vision : Option String
  enabledTools : AgentToolSettings
deriving DecidableEq, Repr

/-- Modelled from the spec: per-adapter terminal outcome.  The dispatcher
treats every provider call as ending in a value: a (possibly empty) list
of sources, a failure reason, or a timeout (§4.2, §7: per-adapter errors
are absorbed as first-class results, never propagated as exceptions). -/
inductive AdapterOutcome where
  | ok (sources : List AgentSource)
  | error (reason : String)
  | timeout
deriving Repr

/-- Modelled from the spec: the environment of adapter results for one
request — what each capability's provider call would return. -/
def AdapterOutcomes : Type := AgentSourceType → AdapterOutcome

/-- Dispatch order of the four capabilities, matching the field order of
`AgentToolSettings`; concatenation in this order is the "original arrival
order" of sources. -/
def toolOrder : List AgentSourceType :=
  [.search, .knowledge, .community, .system]

/-- Whether a capability is enabled in a `AgentToolSettings` map. -/
def enabled (et : AgentToolSettings) : AgentSourceType → Bool
  | .search => et.search
  | .knowledge => et.knowledge
  | .community => et.community
  | .system => et.system

/-- Human-readable tool name used in traces. -/
def toolName : AgentSourceType → String
  | .search => "search"
  | .knowledge => "knowledge"
  | .community => "community"
  | .system => "system"

/-- Modelled from the spec: outcome tag of one invocation
(ok/empty/error/timeout, §4.2). -/
def outcomeTag : AdapterOutcome → String
  | .ok [] => "empty"
  | .ok (_ :: _) => "ok"
  | .error _ => "error"
  | .timeout => "timeout"

/-- Modelled from the spec: one `toolTrace` line — tool name plus outcome
tag. -/
def traceLine (t : AgentSourceType) (o : AdapterOutcome) : String :=
  toolName t ++ ": " ++ outcomeTag o

/-- Number of enabled capabilities. -/
def enabledCount (et : AgentToolSettings) : Nat :=
  (toolOrder.filter (enabled et)).length

/-- Modelled from the spec: what the dispatcher accumulates — merged
sources (in arrival order), the tool trace, and non-fatal errors. -/
structure DispatchResult where
  sources : List AgentSource
  trace : List String
  errorLog : List String
deriving Repr

/-- Modelled from the spec: contribution of one enabled tool.  A success
contributes its sources; a failure or timeout contributes an error entry
naming the tool; every enabled tool contributes exactly one trace line. -/
def dispatchTool (t : AgentSourceType) (o : AdapterOutcome) : DispatchResult :=
  match o with
  | .ok ss => ⟨ss, [traceLine t (.ok ss)], []⟩
  | .error r => ⟨[], [traceLine t (.error r)], [toolName t ++ " failed: " ++ r]⟩
  | .timeout => ⟨[], [traceLine t .timeout], [toolName t ++ " timed out"]⟩

/-- Modelled from the spec: fan-out over a list of tools, fan-in of the
per-tool results in dispatch order (§4.2: all enabled invocations reach a
terminal state; outcomes are concatenated). -/
def dispatchAll (o : AdapterOutcomes) : List AgentSourceType → DispatchResult
  | [] => ⟨[], [], []⟩
  | t :: ts =>
    let r := dispatchTool t (o t)
    let rest := dispatchAll o ts
    ⟨r.sources ++ rest.sources, r.trace ++ rest.trace, r.errorLog ++ rest.errorLog⟩

/-- Modelled from the spec: the Tool Dispatcher — enabled capabilities are
invoked, disabled capabilities are skipped entirely (§4.2). -/
def dispatch (et : AgentToolSettings) (o : AdapterOutcomes) : DispatchResult :=
  dispatchAll o (toolOrder.filter (enabled et))

/-- Modelled from the spec: stopword list of the keyword-extraction
heuristic (term filtering over the vision text, §9 open question — the
concrete heuristic is implementation-chosen; only determinism and
boundedness are required). -/
def stopwords : List String :=
  ["the", "and", "with", "that", "this", "your", "from", "into", "over",
   "what", "have", "will", "their", "about"]

/-- Modelled from the spec: whitespace tokenizer over the character
sequence of the vision text; `acc` holds the current in-progress word in
reverse. -/
def tokenizeAux : List Char → List Char → List String
  | [], acc => if acc = [] then [] else [String.mk acc.reverse]
  | c :: cs, acc =>
    if c.isWhitespace then
      if acc = [] then tokenizeAux cs []
      else String.mk acc.reverse :: tokenizeAux cs []
    else tokenizeAux cs (c :: acc)

/-- Modelled from the spec: which tokens count as bias keywords — long
enough and not a stopword. -/
def keywordFilter (w : String) : Bool :=
  4 ≤ w.length && !(stopwords.contains w.toLower)

/-- Order-preserving de-duplication keeping the first occurrence. -/
def dedupFirst : List String → List String → List String
  | [], _ => []
  | w :: ws, seen =>
    if w ∈ seen then dedupFirst ws seen
    else w :: dedupFirst ws (w :: seen)

/-- Modelled from the spec: the Vision Bias Extractor (§4.1) — an ordered,
de-duplicated keyword sequence bounded to a small count, pure in the
vision text; empty or whitespace-only text yields the empty sequence. -/
def extractVisionBias (v : String) : List String :=
  (dedupFirst ((tokenizeAux v.toList []).filter (keywordFilter ·)) []).take 6

/-- Modelled from the spec: the fixed capability priority used to break
confidence ties (§4.4: knowledge over search over community over
system). -/
def typePrio : AgentSourceType → Nat
  | .knowledge => 0
  | .search => 1
  | .community => 2
  | .system => 3

/-- Modelled from the spec: ranking comparator over arrival-annotated
sources — confidence descending, then capability priority, then original
arrival index (§4.4). -/
def sourceLE (a b : AgentSource × Nat) : Bool :=
  if b.1.confidence < a.1.confidence then true
  else if a.1.confidence < b.1.confidence then false
  else if typePrio a.1.type < typePrio b.1.type then true
  else if typePrio b.1.type < typePrio a.1.type then false
  else decide (a.2 ≤ b.2)

/-- Annotate each source with its arrival index. -/
def annotate (l : List AgentSource) : List (AgentSource × Nat) :=
  l.enum.map (fun p => (p.2, p.1))

/-- Modelled from the spec: rank the annotated merged sources. -/
def rankAnnotated (l : List AgentSource) : List (AgentSource × Nat) :=
  (annotate l).mergeSort sourceLE

/-- Modelled from the spec: the final ranked source order of a
response. -/
def rankSources (l : List AgentSource) : List AgentSource :=
  (rankAnnotated l).map Prod.fst

/-- Whether some ranked source came from the given capability. -/
def hasType (l : List AgentSource) (t : AgentSourceType) : Bool :=
  l.any (fun s => s.type = t)

/-- Modelled from the spec: the Synthesizer's summary — one short
paragraph from the query and top-ranked sources, deterministic; non-empty
even when no sources are available (§4.4). -/
def summaryFor (query : String) (ranked : List AgentSource) : String :=
  match ranked with
  | [] =>
    "No external sources were available for \"" ++ query ++
      "\"; here is a first-principles plan."
  | top :: _ =>
    "Synthesized " ++ toString ranked.length ++ " sources for \"" ++ query ++
      "\"; top signal: " ++ top.title ++ "."

/-- Modelled from the spec: the Synthesizer's plan — 3 to 7 ordered steps
informed by which capabilities contributed sources and by the vision bias
(§4.4); a system-playbook contribution adds a local-first action step. -/
def planFor (query : String) (bias : List String) (ranked : List AgentSource) :
    List String :=
  (["Clarify the objective: " ++ query,
    if ranked = [] then
      "Proceed from first principles; no external sources were available."
    else
      "Review the " ++ toString ranked.length ++ " collected sources."] ++
   (if hasType ranked .knowledge then
      ["Deepen the background using the knowledge summaries."] else []) ++
   (if hasType ranked .search then
      ["Follow up the leading search results."] else []) ++
   (if hasType ranked .community then
      ["Weigh the community discussion signals."] else []) ++
   (if hasType ranked .system then
      ["Apply the matching local-first system playbook."] else []) ++
   (if bias = [] then []
    else ["Keep the vision keywords in focus: " ++
      String.intercalate ", " bias]) ++
   ["Execute the plan and record the outcomes."]).take 7

/-- The diagnostic step recorded when zero capabilities are enabled
(§4.2: not an error). -/
def noToolsStep : String :=
  "No tools were selected; proceeding without external sources."

/-- Modelled from the spec: the Diagnostics Recorder's coarse-grained
milestones (§4.5). -/
def stepsFor (et : AgentToolSettings) (bias : List String) : List String :=
  ["Extracted vision bias (" ++ toString bias.length ++ " keywords)"] ++
  (if enabledCount et = 0 then [noToolsStep]
   else ["Dispatched " ++ toString (enabledCount et) ++ " tools"]) ++
  ["Synthesized summary and plan"]

/-- Modelled from the spec: the orchestration core `getAgentResponse`
(`lib/agent`, not among the visible sources).  Pure in the request, the
adapter outcomes and the timestamp; per-adapter failures are absorbed
into diagnostics and never abort the request (§4, §7). -/
def getAgentResponse (req : AgentRequestPayload) (o : AdapterOutcomes)
    (ts : String) : AgentResponse :=
  let bias := extractVisionBias (req.vision.getD "")
  let d := dispatch req.enabledTools o
  let ranked := rankSources d.sources
  { query := req.query
    vision := req.vision
    timestamp := ts
    summary := summaryFor req.query ranked
    plan := planFor req.query bias ranked
    sources := ranked
    diagnostics :=
      { steps := stepsFor req.enabledTools bias
        toolTrace := d.trace
        visionBias := some bias
        errors := if d.errorLog = [] then none else some d.errorLog } }

/-! ### The HTTP boundary, from `app/api/agent/route.ts` -/

/-- The request body as seen by the route handler: either
`request.json()` rejects (malformed body), or it yields a payload whose
fields may each be absent. -/
inductive ReqBody where
  | malformed
  | parsed (query : Option String) (vision : Option String)
      (enabledTools : Option AgentToolSettings)

/-- A reply produced through `NextResponse.json`: either the serialized
core response (status 200) or an error object with a status code. -/
inductive HttpReply where
  | ok (resp : AgentResponse)
  | err (status : Nat) (msg : String)
deriving DecidableEq

/-- The default capability map the route supplies when `enabledTools` is
omitted (route.ts lines 20-25). -/
def allToolsOn : AgentToolSettings := ⟨true, true, true, true⟩

/-- The 400 message of route.ts. -/
def emptyQueryMsg : String := "The assistant needs a query to proceed."

/-- The 500 message of route.ts. -/
def failureMsg : String := "Agent failed to complete the request."

/-- From route.ts `POST`, parametric in the core so that non-invocation
of the core is expressible: a malformed body throws inside the `try` and
is answered by the generic catch (status 500); a falsy `query` (absent or
the empty string — route.ts does not trim) is answered with status 400;
otherwise the core is called with the defaulted capability map and its
response is serialized verbatim.  The modelled core is total, matching
§7: only orchestration defects could reach the catch. -/
def POSTwith (core : AgentRequestPayload → AdapterOutcomes → String → AgentResponse)
    (body : ReqBody) (o : AdapterOutcomes) (ts : String) : HttpReply :=
  match body with
  | .malformed => .err 500 failureMsg
  | .parsed q v et =>
    match q with
    | none => .err 400 emptyQueryMsg
    | some qs =>
      if qs = "" then .err 400 emptyQueryMsg
      else .ok (core ⟨qs, v, et.getD allToolsOn⟩ o ts)

/-- The route handler with the actual core. -/
def POST : ReqBody → AdapterOutcomes → String → HttpReply :=
  POSTwith getAgentResponse

/-- The JavaScript `String.prototype.trim()`: strip whitespace from both
ends of the string. -/
def jsTrim (s : String) : String :=
  String.mk
    (((s.toList.dropWhile Char.isWhitespace).reverse.dropWhile
        Char.isWhitespace).reverse)

/-! ### The chat client boundary, from `app/page.tsx` -/

/-- The JSON body `handleSubmit` sends to `/api/agent`. -/
structure SubmitRequest where
  query : String
  vision : String
  enabledTools : AgentToolSettings
deriving DecidableEq, Repr

/-- From page.tsx `handleSubmit` (lines 70-99): no request is dispatched
when the trimmed query is empty or a request is already in flight;
otherwise the body carries the trimmed query, the vision text and the
current toggles. -/
def handleSubmit (query vision : String) (tools : AgentToolSettings)
    (loading : Bool) : Option SubmitRequest :=
  if jsTrim query = "" || loading then none
  else some ⟨jsTrim query, vision, tools⟩

/-- The capability map with every tool disabled. -/
def allToolsOff : AgentToolSettings := ⟨false, false, false, false⟩

/-! ### Helper lemmas -/

/-- The dispatcher's trace is one line per dispatched tool, in dispatch
order. -/
theorem dispatchAll_trace (o : AdapterOutcomes) (ts : List AgentSourceType) :
    (dispatchAll o ts).trace = ts.map (fun t => traceLine t (o t)) := by
  induction ts with
  | nil => rfl
  | cons t ts ih =>
    cases h : o t <;> simp [dispatchAll, dispatchTool, h, ih]

/-- Tokenizing a whitespace-only character sequence yields no tokens. -/
theorem tokenizeAux_whitespace (cs : List Char)
    (h : ∀ c ∈ cs, c.isWhitespace = true) :
    tokenizeAux cs [] = [] := by
  induction cs with
  | nil => rfl
  | cons c cs ih =>
    have hc : c.isWhitespace = true := h c (List.mem_cons_self c cs)
    simp only [tokenizeAux, hc, if_true, if_pos rfl]
    exact ih fun d hd => h d (List.mem_cons_of_mem c hd)

/-- A string of positive length is not the empty string. -/
theorem length_pos_ne_empty {s : String} (h : 0 < s.length) : s ≠ "" := by
  intro e
  rw [e] at h
  simp at h

/-- The synthesized summary is never empty. -/
theorem summaryFor_ne_empty (q : String) (ranked : List AgentSource) :
    summaryFor q ranked ≠ "" := by
  cases ranked with
  | nil =>
    apply length_pos_ne_empty
    have h1 : 0 < ("No external sources were available for \"" : String).length := by
      decide
    simp [summaryFor, String.length_append]
    tauto
  | cons top rest =>
    apply length_pos_ne_empty
    have h1 : 0 < ("Synthesized " : String).length := by decide
    simp [summaryFor, String.length_append]
    tauto

/-- The synthesized plan always has between 3 and 7 steps. -/
theorem planFor_length (q : String) (bias : List String)
    (ranked : List AgentSource) :
    3 ≤ (planFor q bias ranked).length ∧ (planFor q bias ranked).length ≤ 7 := by
  unfold planFor
  rw [List.length_take]
  split_ifs <;> simp <;> omega

/-- The ranking comparator is total. -/
theorem sourceLE_total (a b : AgentSource × Nat) :
    (sourceLE a b || sourceLE b a) = true := by
  simp only [sourceLE]
  split_ifs <;> simp_all <;> omega

set_option maxHeartbeats 2000000 in
/-- The ranking comparator is transitive. -/
theorem sourceLE_trans (a b c : AgentSource × Nat) :
    sourceLE a b → sourceLE b c → sourceLE a c := by
  simp only [sourceLE]
  split_ifs <;>
    simp_all <;>
    first
      | omega
      | linarith

/-- An adapter environment in which every provider call times out. -/
def timeoutOutcomes : AdapterOutcomes := fun _ => AdapterOutcome.timeout

/-- An adapter environment in which every provider call fails. -/
def failingOutcomes : AdapterOutcomes := fun _ => AdapterOutcome.error "boom"

/-! ### Claim theorems -/

/-- C1 (counterexample): the route does not trim the query before
validating it.  The one-space query is empty after trimming, yet the
route does not reject it with a 400 — it invokes the core and returns its
response. -/
theorem c1_whitespace_query_reaches_core :
    jsTrim " " = "" ∧
    POST (.parsed (some " ") none none) timeoutOutcomes "t0" =
      .ok (getAgentResponse ⟨" ", none, allToolsOn⟩ timeoutOutcomes "t0") := by
  constructor
  · decide
  · rfl

/-- C1 (amended): the route rejects, with status 400 and without invoking
the core (the reply is the same for every `core`), exactly those requests
whose `query` field is absent or the literal empty string; any other
query — including whitespace-only ones — is forwarded to the core. -/
theorem c1_untrimmed_query_validation
    (core : AgentRequestPayload → AdapterOutcomes → String → AgentResponse)
    (v : Option String) (et : Option AgentToolSettings)
    (o : AdapterOutcomes) (ts : String) :
    (∀ q : Option String, q = none ∨ q = some "" →
      POSTwith core (.parsed q v et) o ts = .err 400 emptyQueryMsg) ∧
    (∀ qs : String, qs ≠ "" →
      POSTwith core (.parsed (some qs) v et) o ts =
        .ok (core ⟨qs, v, et.getD allToolsOn⟩ o ts)) := by
  constructor
  · rintro q (rfl | rfl) <;> simp [POSTwith]
  · intro qs h
    simp [POSTwith, h]

/-- C1 (witness): the empty-string query is rejected with the 400
message. -/
theorem c1_untrimmed_query_validation_witness :
    POSTwith getAgentResponse (.parsed (some "") none none)
      timeoutOutcomes "t0" = .err 400 emptyQueryMsg :=
  (c1_untrimmed_query_validation getAgentResponse none none
    timeoutOutcomes "t0").1 (some "") (Or.inr rfl)

/-- C2: an accepted request (non-empty query) is always answered with the
core's complete response, whatever every adapter's outcome is — so no
per-adapter failure can fail the request — and any error reply the route
produces carries one of the two fixed generic messages, leaking no
internals. -/
theorem c2_complete_response_or_generic_error
    (body : ReqBody) (o : AdapterOutcomes) (ts : String) :
    (∀ (qs : String) (v : Option String) (et : Option AgentToolSettings),
      body = .parsed (some qs) v et → qs ≠ "" →
        POST body o ts =
          .ok (getAgentResponse ⟨qs, v, et.getD allToolsOn⟩ o ts)) ∧
    (∀ (st : Nat) (m : String), POST body o ts = .err st m →
      (st = 400 ∧ m = emptyQueryMsg) ∨ (st = 500 ∧ m = failureMsg)) := by
  constructor
  · rintro qs v et rfl h
    simp [POST, POSTwith, h]
  · intro st m h
    match body with
    | .malformed =>
      simp only [POST, POSTwith] at h
      cases h
      exact Or.inr ⟨rfl, rfl⟩
    | .parsed none v et =>
      simp only [POST, POSTwith] at h
      cases h
      exact Or.inl ⟨rfl, rfl⟩
    | .parsed (some qs) v et =>
      simp only [POST, POSTwith] at h
      by_cases hq : qs = "" <;> simp [hq] at h
      exact Or.inl ⟨h.1.symm, h.2.symm⟩

/-- C2 (witness): a request whose every adapter fails still yields the
complete core response. -/
theorem c2_complete_response_or_generic_error_witness :
    POST (.parsed (some "q") none none) failingOutcomes "t0" =
      .ok (getAgentResponse ⟨"q", none, allToolsOn⟩
        failingOutcomes "t0") :=
  (c2_complete_response_or_generic_error (.parsed (some "q") none none)
    failingOutcomes "t0").1 "q" none none rfl (by decide)

/-- C5: when the request body omits `enabledTools`, the route invokes the
core with all four capabilities enabled. -/
theorem c5_omitted_tools_default_all_enabled
    (core : AgentRequestPayload → AdapterOutcomes → String → AgentResponse)
    (qs : String) (v : Option String) (o : AdapterOutcomes) (ts : String)
    (h : qs ≠ "") :
    POSTwith core (.parsed (some qs) v none) o ts =
      .ok (core ⟨qs, v, allToolsOn⟩ o ts) := by
  simp [POSTwith, h]

/-- C5 (witness): concrete instance of the defaulting rule. -/
theorem c5_omitted_tools_default_all_enabled_witness :
    POSTwith getAgentResponse (.parsed (some "hello") none none)
      timeoutOutcomes "t0" =
      .ok (getAgentResponse ⟨"hello", none, allToolsOn⟩
        timeoutOutcomes "t0") :=
  c5_omitted_tools_default_all_enabled getAgentResponse "hello" none
    timeoutOutcomes "t0" (by decide)

/-- C9 (counterexample): a malformed body (JSON parsing throws inside the
`try`) is answered by the generic catch with status 500 — a server-error
signal, not the client-error signal the claim requires. -/
theorem c9_malformed_gets_server_error :
    POST .malformed timeoutOutcomes "t0" = .err 500 failureMsg ∧
    POST .malformed timeoutOutcomes "t0" ≠ .err 400 emptyQueryMsg := by
  constructor
  · rfl
  · intro h
    cases h

/-- C9 (amended): a malformed request is answered immediately and the
core is never invoked (the reply is the same for every `core`), but the
signal is the generic server error (status 500), not a client error. -/
theorem c9_malformed_rejected_without_core
    (core : AgentRequestPayload → AdapterOutcomes → String → AgentResponse)
    (o : AdapterOutcomes) (ts : String) :
    POSTwith core .malformed o ts = .err 500 failureMsg := rfl

/-- C3: the tool trace of every response is exactly the map of one trace
line (tool name plus outcome tag) over the enabled capabilities in
dispatch order — so it has exactly one entry per enabled capability,
whatever each adapter's outcome is, and disabled capabilities contribute
nothing. -/
theorem c3_one_trace_entry_per_enabled_tool (req : AgentRequestPayload)
    (o : AdapterOutcomes) (ts : String) :
    (getAgentResponse req o ts).diagnostics.toolTrace =
      (toolOrder.filter (enabled req.enabledTools)).map
        (fun t => traceLine t (o t)) ∧
    (getAgentResponse req o ts).diagnostics.toolTrace.length =
      enabledCount req.enabledTools := by
  have h := dispatchAll_trace o (toolOrder.filter (enabled req.enabledTools))
  constructor
  · simpa [getAgentResponse, dispatch] using h
  · simp [getAgentResponse, dispatch, h, enabledCount]

/-- C4: with all four capabilities disabled the core returns an empty
source list, a non-empty summary, a non-empty plan, and a diagnostics
step noting that no tools were selected; the route answers such an
accepted request with the 200 reply carrying that response, not with an
error. -/
theorem c4_all_tools_disabled_is_success (q : String) (v : Option String)
    (o : AdapterOutcomes) (ts : String) (h : q ≠ "") :
    (getAgentResponse ⟨q, v, allToolsOff⟩ o ts).sources = [] ∧
    (getAgentResponse ⟨q, v, allToolsOff⟩ o ts).summary ≠ "" ∧
    (getAgentResponse ⟨q, v, allToolsOff⟩ o ts).plan ≠ [] ∧
    noToolsStep ∈ (getAgentResponse ⟨q, v, allToolsOff⟩ o ts).diagnostics.steps ∧
    POST (.parsed (some q) v (some allToolsOff)) o ts =
      .ok (getAgentResponse ⟨q, v, allToolsOff⟩ o ts) := by
  refine ⟨?_, ?_, ?_, ?_, ?_⟩
  · simp [getAgentResponse, dispatch, dispatchAll, toolOrder, enabled,
      allToolsOff, rankSources, rankAnnotated, annotate]
  · exact summaryFor_ne_empty q _
  · have hl := planFor_length q (extractVisionBias (v.getD ""))
      (rankSources (dispatch allToolsOff o).sources)
    have : 0 < (getAgentResponse ⟨q, v, allToolsOff⟩ o ts).plan.length := by
      simp only [getAgentResponse]
      omega
    exact List.ne_nil_of_length_pos this
  · simp [getAgentResponse, stepsFor, enabledCount, allToolsOff, toolOrder,
      enabled]
  · simp [POST, POSTwith, h]

/-- C4 (witness): Scenario B — query `"x"`, no vision, all tools
disabled. -/
theorem c4_all_tools_disabled_is_success_witness :
    (getAgentResponse ⟨"x", none, allToolsOff⟩ timeoutOutcomes "t0").sources
        = [] ∧
    (getAgentResponse ⟨"x", none, allToolsOff⟩ timeoutOutcomes "t0").summary
        ≠ "" ∧
    (getAgentResponse ⟨"x", none, allToolsOff⟩ timeoutOutcomes "t0").plan
        ≠ [] ∧
    noToolsStep ∈ (getAgentResponse ⟨"x", none, allToolsOff⟩
      timeoutOutcomes "t0").diagnostics.steps ∧
    POST (.parsed (some "x") none (some allToolsOff)) timeoutOutcomes "t0" =
      .ok (getAgentResponse ⟨"x", none, allToolsOff⟩ timeoutOutcomes "t0") :=
  c4_all_tools_disabled_is_success "x" none timeoutOutcomes "t0" (by decide)

/-- C6: the Vision Bias Extractor is a pure function of the vision text
(equal inputs give equal keyword sequences) and on whitespace-only input
it yields the empty sequence without failing. -/
theorem c6_extractor_deterministic_empty_on_blank :
    (∀ v w : String, v = w → extractVisionBias v = extractVisionBias w) ∧
    (∀ v : String, (∀ c ∈ v.toList, c.isWhitespace = true) →
      extractVisionBias v = []) := by
  refine ⟨fun v w h => h ▸ rfl, fun v h => ?_⟩
  unfold extractVisionBias
  rw [tokenizeAux_whitespace v.toList h]
  rfl

/-- C6 (witness): a whitespace-only vision text yields no keywords. -/
theorem c6_extractor_deterministic_empty_on_blank_witness :
    extractVisionBias " \t " = [] :=
  c6_extractor_deterministic_empty_on_blank.2 " \t " (by decide)

/-- C7: the response's sources are the merged adapter sources reordered
by the ranking comparator — confidence descending, ties by the fixed
capability priority, then by original arrival index — the reordering is a
permutation sorted under that comparator, and ranking is deterministic in
its input. -/
theorem c7_sources_ranked_deterministically :
    (∀ l : List AgentSource,
      (rankAnnotated l).Pairwise (fun a b => sourceLE a b = true) ∧
      (rankAnnotated l).Perm (annotate l)) ∧
    (∀ (req : AgentRequestPayload) (o : AdapterOutcomes) (ts : String),
      (getAgentResponse req o ts).sources =
        (rankAnnotated (dispatch req.enabledTools o).sources).map Prod.fst) ∧
    (∀ l m : List AgentSource, l = m → rankAnnotated l = rankAnnotated m) := by
  refine ⟨fun l => ⟨?_, ?_⟩, fun req o ts => rfl, fun l m h => h ▸ rfl⟩
  · exact List.sorted_mergeSort sourceLE_trans sourceLE_total (annotate l)
  · exact List.mergeSort_perm (annotate l) sourceLE

/-- C7 (witness): ranking a concrete two-source list is deterministic. -/
theorem c7_sources_ranked_deterministically_witness :
    rankAnnotated [⟨"a", .search, "t", none, "s", 1/2⟩] =
      rankAnnotated [⟨"a", .search, "t", none, "s", 1/2⟩] :=
  c7_sources_ranked_deterministically.2.2
    [⟨"a", .search, "t", none, "s", 1/2⟩]
    [⟨"a", .search, "t", none, "s", 1/2⟩] rfl

/-- C8: every response's plan has at least 3 and at most 7 steps. -/
theorem c8_plan_has_three_to_seven_steps (req : AgentRequestPayload)
    (o : AdapterOutcomes) (ts : String) :
    3 ≤ (getAgentResponse req o ts).plan.length ∧
    (getAgentResponse req o ts).plan.length ≤ 7 := by
  have h := planFor_length req.query (extractVisionBias (req.vision.getD ""))
    (rankSources (dispatch req.enabledTools o).sources)
  simpa [getAgentResponse] using h

/-- C10: the chat client dispatches a request exactly when the trimmed
query is non-empty and no request is in flight, and the dispatched body
carries exactly the trimmed input as query, together with the current
vision text and toggles. -/
theorem c10_submit_trims_and_guards (q v : String)
    (tools : AgentToolSettings) (loading : Bool) :
    ((handleSubmit q v tools loading).isSome ↔
      (jsTrim q ≠ "" ∧ loading = false)) ∧
    (∀ r : SubmitRequest, handleSubmit q v tools loading = some r →
      r.query = jsTrim q ∧ r.vision = v ∧ r.enabledTools = tools) := by
  unfold handleSubmit
  constructor
  · by_cases hq : jsTrim q = "" <;> cases loading <;> simp [hq]
  · intro r h
    by_cases hq : jsTrim q = "" <;> cases loading <;> simp [hq] at h
    exact ⟨h.symm ▸ rfl, h.symm ▸ rfl, h.symm ▸ rfl⟩

/-- C10 (witness): submitting `" hi "` while idle sends the trimmed query
`"hi"`. -/
theorem c10_submit_trims_and_guards_witness :
    (⟨"hi", "v", allToolsOn⟩ : SubmitRequest).query = jsTrim " hi " ∧
    (⟨"hi", "v", allToolsOn⟩ : SubmitRequest).vision = "v" ∧
    (⟨"hi", "v", allToolsOn⟩ : SubmitRequest).enabledTools = allToolsOn :=
  (c10_submit_trims_and_guards " hi " "v" allToolsOn false).2
    ⟨"hi", "v", allToolsOn⟩ (by decide)

end Brian
